import Mathlib

/- Verification of the flask-back medical-report extraction service
   (src/app.py) against its specification.  The embedding models the JSON
   values handled by json.loads, the response parser of
   extract_medical_terms_with_gemini_image, the extension dispatcher
   process_uploaded_file, and the POST /upload endpoint upload_file.
   External effects (PDF rasterization, PIL JPEG re-encoding, the Gemini
   API call, the uploaded file's bytes) are supplied as oracles in an Env
   record; filesystem writes performed by the endpoint are recorded in the
   reply. -/

namespace MedExtract

/-- Characters treated as whitespace by Python's str.strip (ASCII subset;
exotic Unicode whitespace is not modelled — no input here uses it). -/
def pySpace (c : Char) : Bool :=
  c = ' ' || c = '\t' || c = '\n' || c = '\r' || c = '\x0b' || c = '\x0c'

/-- Python str.strip(): drop leading and trailing whitespace. -/
def pyStrip (s : String) : String :=
  String.mk (((s.toList.dropWhile pySpace).reverse.dropWhile pySpace).reverse)

/-- Python str.lower() on the ASCII range (the extensions compared by the
dispatcher are ASCII). -/
def pyLower (s : String) : String :=
  String.mk (s.toList.map Char.toLower)

/-- Boolean list-prefix test. -/
def pfx : List Char → List Char → Bool
  | [], _ => true
  | _ :: _, [] => false
  | a :: as, b :: bs => a == b && pfx as bs

/-- Does pat occur as a contiguous substring of the second list. -/
def hasSubstr (pat : List Char) : List Char → Bool
  | [] => pfx pat []
  | c :: rest => pfx pat (c :: rest) || hasSubstr pat rest

/-- Characters of the basename of a POSIX path (the part after the last
'/' separator), as scanned by os.path.splitext. -/
def basenameChars (cs : List Char) : List Char :=
  cs.foldl (fun acc c => if c = '/' then [] else acc ++ [c]) []

/-- Index of the last '.' in a character list, if any. -/
def lastDotIdx (cs : List Char) : Option Nat :=
  cs.enum.foldl (fun acc p => if p.2 = '.' then some p.1 else acc) none

/-- os.path.splitext(p)[1] for POSIX paths: the extension including its
dot; empty when the basename has no dot or only leading dots. -/
def splitext_ext (p : String) : String :=
  let b := basenameChars p.toList
  match lastDotIdx b with
  | none => ""
  | some d => if (b.take d).any (fun c => c != '.') then String.mk (b.drop d) else ""

/-- Does the string end in a '/' character. -/
def endsSlash (a : String) : Bool :=
  match a.toList.reverse with
  | '/' :: _ => true
  | _ => false

/-- os.path.join(a, b) for POSIX paths: an absolute b wins; otherwise the
parts are joined with '/' unless a is empty or already ends with '/'. -/
def os_path_join (a b : String) : String :=
  if pfx ['/'] b.toList then b
  else if a == "" || endsSlash a then a ++ b
  else a ++ "/" ++ b

/-- JSON values as produced by Python's json.loads.  Numbers keep their
source literal: the int/float distinction is irrelevant to every claim. -/
inductive JValue where
  | null
  | bool (b : Bool)
  | num (lit : String)
  | str (s : String)
  | arr (elems : List JValue)
  | obj (entries : List (String × JValue))

/-- Lookup in an insertion-ordered association list (Python dict lookup;
dicts built by the code below always have pairwise-distinct keys). -/
def dictFind (d : List (String × JValue)) (k : String) : Option JValue :=
  match d with
  | [] => none
  | (k1, v1) :: rest => if k1 = k then some v1 else dictFind rest k

/-- Python dict assignment d[k] = v: overwrite in place keeping the
original insertion position, otherwise append at the end. -/
def dictInsert (d : List (String × JValue)) (k : String) (v : JValue) : List (String × JValue) :=
  if (dictFind d k).isSome then
    d.map (fun p => if p.1 = k then (k, v) else p)
  else d ++ [(k, v)]

/-- Python dict.update(e) for a dict argument e: fold assignments in e's
iteration order (later entries overwrite earlier ones). -/
def dictUpdate (d e : List (String × JValue)) : List (String × JValue) :=
  e.foldl (fun acc p => dictInsert acc p.1 p.2) d

/-- Is the numeric literal of a JSON number equal to zero (sign, decimal
point and exponent ignored; NaN and Infinity are nonzero). -/
def jsonNumIsZero (lit : String) : Bool :=
  let cs := match lit.toList with
    | '-' :: r => r
    | l => l
  let mant := cs.takeWhile (fun c => c != 'e' && c != 'E')
  mant.all (fun c => c == '0' || c == '.') && mant.any (fun c => c == '0')

/-- Python truthiness of a json.loads result. -/
def jTruthy : JValue → Bool
  | .null => false
  | .bool b => b
  | .num lit => !jsonNumIsZero lit
  | .str s => !(s == "")
  | .arr xs => !xs.isEmpty
  | .obj kvs => !kvs.isEmpty

/-- Python v[k] for a string key k: dict lookup; the error carries str(e)
of the KeyError; the messages for non-dict receivers are approximations of
the TypeError text (no theorem depends on them). -/
def jSubscript (v : JValue) (k : String) : Except String JValue :=
  match v with
  | .obj kvs =>
    match dictFind kvs k with
    | some x => .ok x
    | none => .error ("'" ++ k ++ "'")
  | .arr _ => .error "list indices must be integers or slices, not str"
  | .str _ => .error "string indices must be integers"
  | .num _ => .error "'int' object is not subscriptable"
  | .bool _ => .error "'bool' object is not subscriptable"
  | .null => .error "'NoneType' object is not subscriptable"

/-- Keys of a JSON object, empty for non-objects: an observation used to
state counterexamples. -/
def jKeys : JValue → List String
  | .obj kvs => kvs.map Prod.fst
  | _ => []

/-- Is this JSON value an object (a Python mapping). -/
def jIsObj : JValue → Bool
  | .obj _ => true
  | _ => false

/-- JSON document whitespace (as skipped by json.loads). -/
def jsonWsChar (c : Char) : Bool :=
  c = ' ' || c = '\t' || c = '\n' || c = '\r'

/-- Skip JSON whitespace. -/
def skipWs (cs : List Char) : List Char :=
  cs.dropWhile jsonWsChar

/-- Value of a hexadecimal digit. -/
def hexVal (c : Char) : Option Nat :=
  if '0' ≤ c ∧ c ≤ '9' then some (c.toNat - '0'.toNat)
  else if 'a' ≤ c ∧ c ≤ 'f' then some (c.toNat - 'a'.toNat + 10)
  else if 'A' ≤ c ∧ c ≤ 'F' then some (c.toNat - 'A'.toNat + 10)
  else none

/-- Four-hex-digit value of a \uXXXX escape. -/
def hex4 (a b c d : Char) : Option Nat := do
  let x ← hexVal a
  let y ← hexVal b
  let z ← hexVal c
  let w ← hexVal d
  pure (((x * 16 + y) * 16 + z) * 16 + w)

/-- String-body scanner of json.loads, entered after the opening quote:
handles the standard escapes; strict mode rejects raw control characters.
Surrogate pairs are combined; a lone surrogate (not representable as a
Lean Char) degrades to NUL — no claim touches this corner. -/
def parseStrLoop : Nat → List Char → List Char → Option (String × List Char)
  | 0, _, _ => none
  | fuel + 1, acc, cs =>
    match cs with
    | [] => none
    | '"' :: rest => some (String.mk acc.reverse, rest)
    | '\\' :: rest =>
      match rest with
      | [] => none
      | e :: rest2 =>
        if e = '"' then parseStrLoop fuel ('"' :: acc) rest2
        else if e = '\\' then parseStrLoop fuel ('\\' :: acc) rest2
        else if e = '/' then parseStrLoop fuel ('/' :: acc) rest2
        else if e = 'b' then parseStrLoop fuel ('\x08' :: acc) rest2
        else if e = 'f' then parseStrLoop fuel ('\x0c' :: acc) rest2
        else if e = 'n' then parseStrLoop fuel ('\n' :: acc) rest2
        else if e = 'r' then parseStrLoop fuel ('\r' :: acc) rest2
        else if e = 't' then parseStrLoop fuel ('\t' :: acc) rest2
        else if e = 'u' then
          match rest2 with
          | a :: b :: c :: d :: rest3 =>
            match hex4 a b c d with
            | none => none
            | some n =>
              if 0xD800 ≤ n ∧ n ≤ 0xDBFF then
                match rest3 with
                | '\\' :: 'u' :: a2 :: b2 :: c2 :: d2 :: rest4 =>
                  match hex4 a2 b2 c2 d2 with
                  | some m =>
                    if 0xDC00 ≤ m ∧ m ≤ 0xDFFF then
                      parseStrLoop fuel
                        (Char.ofNat (0x10000 + (n - 0xD800) * 0x400 + (m - 0xDC00)) :: acc) rest4
                    else parseStrLoop fuel (Char.ofNat n :: acc) rest3
                  | none => parseStrLoop fuel (Char.ofNat n :: acc) rest3
                | _ => parseStrLoop fuel (Char.ofNat n :: acc) rest3
              else parseStrLoop fuel (Char.ofNat n :: acc) rest3
          | _ => none
        else none
    | c :: rest => if c.toNat < 32 then none else parseStrLoop fuel (c :: acc) rest

/-- Split off a maximal run of decimal digits. -/
def digitsOf (cs : List Char) : List Char × List Char :=
  (cs.takeWhile Char.isDigit, cs.dropWhile Char.isDigit)

/-- The NUMBER_RE of Python's json scanner,
(-?(0|[1-9][0-9]*))(\.[0-9]+)?([eE][+-]?[0-9]+)? , returning the matched
literal and the remaining input. -/
def parseNumber (cs : List Char) : Option (List Char × List Char) :=
  let sr : List Char × List Char :=
    match cs with
    | '-' :: r => (['-'], r)
    | _ => ([], cs)
  let ipart : Option (List Char × List Char) :=
    match sr.2 with
    | '0' :: r => some (['0'], r)
    | c :: r =>
      if c.isDigit then
        let dr := digitsOf r
        some (c :: dr.1, dr.2)
      else none
    | [] => none
  match ipart with
  | none => none
  | some (ip, cs2) =>
    let fr : List Char × List Char :=
      match cs2 with
      | '.' :: r =>
        let dr := digitsOf r
        if dr.1.isEmpty then ([], cs2) else ('.' :: dr.1, dr.2)
      | _ => ([], cs2)
    let er : List Char × List Char :=
      match fr.2 with
      | e :: r =>
        if e = 'e' || e = 'E' then
          match r with
          | s :: r2 =>
            if s = '+' || s = '-' then
              let dr := digitsOf r2
              if dr.1.isEmpty then ([], fr.2) else (e :: s :: dr.1, dr.2)
            else
              let dr := digitsOf r
              if dr.1.isEmpty then ([], fr.2) else (e :: dr.1, dr.2)
          | [] => ([], fr.2)
        else ([], fr.2)
      | [] => ([], fr.2)
    some (sr.1 ++ ip ++ fr.1 ++ er.1, er.2)

/-- Opening curly brace character. -/
def lcurly : Char := Char.ofNat 123

/-- Closing curly brace character. -/
def rcurly : Char := Char.ofNat 125

mutual

/-- Value scanner of json.loads (fuel-indexed; the fuel passed at top
level always suffices).  Duplicate object keys follow dict semantics:
the last occurrence wins. -/
def parseValue : Nat → List Char → Option (JValue × List Char)
  | 0, _ => none
  | fuel + 1, cs =>
    match cs with
    | [] => none
    | c :: rest =>
      if c = lcurly then
        match skipWs rest with
        | [] => none
        | c1 :: rest1 =>
          if c1 = rcurly then some (.obj [], rest1)
          else
            match parseMembers fuel (c1 :: rest1) [] with
            | some (kvs, r) => some (.obj kvs, r)
            | none => none
      else if c = '[' then
        match skipWs rest with
        | [] => none
        | c1 :: rest1 =>
          if c1 = ']' then some (.arr [], rest1)
          else
            match parseElems fuel (c1 :: rest1) [] with
            | some (xs, r) => some (.arr xs, r)
            | none => none
      else if c = '"' then
        match parseStrLoop (rest.length + 1) [] rest with
        | some (s, rest1) => some (.str s, rest1)
        | none => none
      else if pfx ['t', 'r', 'u', 'e'] cs then some (.bool true, cs.drop 4)
      else if pfx ['f', 'a', 'l', 's', 'e'] cs then some (.bool false, cs.drop 5)
      else if pfx ['n', 'u', 'l', 'l'] cs then some (.null, cs.drop 4)
      else if pfx ['N', 'a', 'N'] cs then some (.num "NaN", cs.drop 3)
      else if pfx ['I', 'n', 'f', 'i', 'n', 'i', 't', 'y'] cs then
        some (.num "Infinity", cs.drop 8)
      else if pfx ['-', 'I', 'n', 'f', 'i', 'n', 'i', 't', 'y'] cs then
        some (.num "-Infinity", cs.drop 9)
      else
        match parseNumber cs with
        | some (lit, rest1) => some (.num (String.mk lit), rest1)
        | none => none

/-- Object-member scanner, positioned at a property name. -/
def parseMembers : Nat → List Char → List (String × JValue) → Option (List (String × JValue) × List Char)
  | 0, _, _ => none
  | fuel + 1, cs, acc =>
    match cs with
    | '"' :: rest =>
      match parseStrLoop (rest.length + 1) [] rest with
      | none => none
      | some (k, cs2) =>
        match skipWs cs2 with
        | ':' :: cs4 =>
          match parseValue fuel (skipWs cs4) with
          | none => none
          | some (v, cs5) =>
            match skipWs cs5 with
            | ',' :: cs7 => parseMembers fuel (skipWs cs7) (dictInsert acc k v)
            | c :: cs7 => if c = rcurly then some (dictInsert acc k v, cs7) else none
            | [] => none
        | _ => none
    | _ => none

/-- Array-element scanner, positioned at an element. -/
def parseElems : Nat → List Char → List JValue → Option (List JValue × List Char)
  | 0, _, _ => none
  | fuel + 1, cs, acc =>
    match parseValue fuel cs with
    | none => none
    | some (v, cs1) =>
      match skipWs cs1 with
      | ',' :: cs2 => parseElems fuel (skipWs cs2) (acc ++ [v])
      | ']' :: cs2 => some (acc ++ [v], cs2)
      | _ => none

end

/-- json.loads: parse one complete JSON document; trailing whitespace is
allowed, any other trailing data is rejected (Extra data). -/
def json_loads (s : String) : Option JValue :=
  let cs := skipWs s.toList
  match parseValue (2 * cs.length + 2) cs with
  | some (v, rest) => if (skipWs rest).isEmpty then some v else none
  | none => none

/-- The literal "```json\n" opening a fenced block in the response regex. -/
def openTok : List Char := ['`', '`', '`', 'j', 's', 'o', 'n', '\n']

/-- The literal "\n```" closing a fenced block. -/
def closeTok : List Char := ['\n', '`', '`', '`']

/-- Scan for the earliest occurrence of closeTok; the interior characters
are accumulated (reversed) in acc.  Models the lazy interior of the
non-greedy regex group. -/
def findClose (cs : List Char) (acc : List Char) : Option (List Char) :=
  match cs with
  | [] => none
  | c :: rest =>
    if pfx closeTok (c :: rest) then some acc.reverse
    else findClose rest (c :: acc)

/-- re.search with the raw pattern  ```json\n([\s\S]*?)\n```  : the
leftmost opening "```json\n" that is followed by some "\n```", with the
shortest (non-greedy) interior. -/
def findFenced (cs : List Char) : Option (List Char) :=
  match cs with
  | [] => none
  | c :: rest =>
    if pfx openTok (c :: rest) then
      match findClose (List.drop openTok.length (c :: rest)) [] with
      | some interior => some interior
      | none => findFenced rest
    else findFenced rest

/-- Default empty ExtractionResult returned on any failure. -/
def defaultExtraction : JValue :=
  .obj [("key_value_pairs", .obj []), ("extracted_tests", .obj [])]

/-- Candidate JSON string chosen from a raw model reply (app.py lines
57-62): the stripped fenced interior when the regex matches, otherwise
the whole reply stripped. -/
def geminiCandidate (raw : String) : String :=
  match findFenced raw.toList with
  | some interior => pyStrip (String.mk interior)
  | none => pyStrip raw

/-- Parse-and-catch logic of extract_medical_terms_with_gemini_image
(app.py lines 57-69) applied to a raw reply text: json.loads of the
candidate, with json.JSONDecodeError absorbed into the default. -/
def parseGeminiText (raw : String) : JValue :=
  match json_loads (geminiCandidate raw) with
  | some v => v
  | none => defaultExtraction

/-- External effects of one request, supplied as oracles: the rasterizer
output (convert_pdf_to_images already returns [] when conversion raises,
app.py lines 75-82), PIL JPEG re-encoding of a page image, the uploaded
file's raw bytes as read by open(...).read(), and the Gemini call
(image bytes, mime type) ↦ raw reply text, with none when the API call
raises. -/
structure Env where
  pdfImages : List String
  encodeJPEG : String → String
  fileBytes : String
  gemini : String → String → Option String

/-- extract_medical_terms_with_gemini_image (app.py lines 26-72): one
model call followed by the parse-and-catch logic; an exception from the
API call itself is also absorbed into the default. -/
def extract_medical_terms_with_gemini_image (env : Env) (image_data : String) (mime_type : String) : JValue :=
  match env.gemini image_data mime_type with
  | some raw => parseGeminiText raw
  | none => defaultExtraction

/-- One page's result: 1-based page number tagged with its parsed data. -/
structure PageResult where
  page : Nat
  data : JValue

/-- process_uploaded_file (app.py lines 85-110): dispatch on the
lowercased extension; the unsupported-extension ValueError is modelled as
Except.error carrying str(e). -/
def process_uploaded_file (env : Env) (uploaded_file_path : String) : Except String (List PageResult) :=
  let file_extension := pyLower (splitext_ext uploaded_file_path)
  if file_extension ∈ [".pdf"] then
    if env.pdfImages.isEmpty then
      .ok [⟨1, defaultExtraction⟩]
    else
      .ok (env.pdfImages.enum.map (fun p =>
        ⟨p.1 + 1, extract_medical_terms_with_gemini_image env (env.encodeJPEG p.2) "image/jpeg"⟩))
  else if file_extension ∈ [".jpg", ".jpeg", ".png"] then
    .ok [⟨1, extract_medical_terms_with_gemini_image env env.fileBytes "image/jpeg"⟩]
  else
    .error ("Unsupported file type: " ++ file_extension ++ ". Please upload a PDF, JPEG, or PNG file.")

/-- A POST /upload request: presence of the multipart file field and the
client-supplied filename. -/
structure UploadRequest where
  hasFilePart : Bool
  filename : String

/-- Filesystem operations the endpoint can perform.  The code only ever
calls file.save; a delete operation exists in the vocabulary so that its
absence from every trace is a statement, not a tautology of the type. -/
inductive FsOp where
  | save (path : String)
  | delete (path : String)

/-- An HTTP reply together with the filesystem effects performed while
producing it. -/
structure HttpReply where
  status : Nat
  body : JValue
  fs : List FsOp

/-- The fixed upload directory (app.py line 17). -/
def UPLOAD_FOLDER : String := "Uploads"

/-- jsonify({"error": msg}). -/
def errBody (msg : String) : JValue := .obj [("error", .str msg)]

/-- The guard  not results or (len(results) == 1 and not r0[kv] and not
r0[et])  of app.py line 128, with Python's evaluation order, short-circuit
and exceptions. -/
def emptyResultCheck : List PageResult → Except String Bool
  | [] => .ok true
  | [r] => do
    let kv ← jSubscript r.data "key_value_pairs"
    if jTruthy kv then pure false
    else do
      let et ← jSubscript r.data "extracted_tests"
      pure (!jTruthy et)
  | _ => .ok false

/-- dict.update with a json value argument: only mapping arguments are
modelled faithfully (a sequence-of-pairs argument, which no claim
exercises, is collapsed into an error like the other non-mapping cases). -/
def dictUpdateJ (d : List (String × JValue)) (v : JValue) : Except String (List (String × JValue)) :=
  match v with
  | .obj kvs => .ok (dictUpdate d kvs)
  | _ => .error "dict.update argument is not a mapping"

/-- One iteration of the merge loop of app.py lines 136-139: look up both
mappings of the page (KeyError possible) and dict.update the combined
accumulators, key_value_pairs first. -/
def mergeStep (acc : List (String × JValue) × List (String × JValue)) (r : PageResult) :
    Except String (List (String × JValue) × List (String × JValue)) := do
  let kv ← jSubscript r.data "key_value_pairs"
  let ckv ← dictUpdateJ acc.1 kv
  let et ← jSubscript r.data "extracted_tests"
  let cet ← dictUpdateJ acc.2 et
  pure (ckv, cet)

/-- The multi-page merge loop of app.py lines 134-143: fold dict.update
over the pages in order. -/
def mergeResults (results : List PageResult) : Except String JValue := do
  let comb ← results.foldlM mergeStep ([], [])
  pure (.obj [("key_value_pairs", .obj comb.1), ("extracted_tests", .obj comb.2)])

/-- Body of the try block of upload_file (app.py lines 126-147): status
and response body; any Exception is caught at the boundary and rendered
as Processing failed with str(e). -/
def handleUpload (env : Env) (file_path : String) : Nat × JValue :=
  match process_uploaded_file env file_path with
  | .error e => (500, errBody ("Processing failed: " ++ e))
  | .ok results =>
    match emptyResultCheck results with
    | .error e => (500, errBody ("Processing failed: " ++ e))
    | .ok true =>
      (500, errBody "Failed to extract data from the file. Ensure the file contains readable medical report data.")
    | .ok false =>
      match results with
      | [r] => (200, .obj [("data", r.data)])
      | rs =>
        match mergeResults rs with
        | .error e => (500, errBody ("Processing failed: " ++ e))
        | .ok fin => (200, .obj [("data", fin)])

/-- The POST /upload endpoint (app.py lines 112-147).  The fs field
records filesystem effects in order (file.save at line 124; the code
never deletes).  The none result models the unreachable fall-through of
the `if file:` guard, whose FileStorage truthiness is a nonempty
filename. -/
def upload_file (env : Env) (req : UploadRequest) : Option HttpReply :=
  if req.hasFilePart = false then
    some ⟨400, errBody "No file part in the request", []⟩
  else if req.filename = "" then
    some ⟨400, errBody "No file selected", []⟩
  else if req.filename ≠ "" then
    let file_path := os_path_join UPLOAD_FOLDER req.filename
    some ⟨(handleUpload env file_path).1, (handleUpload env file_path).2, [FsOp.save file_path]⟩
  else none

/-- Shape abbreviation: a well-formed ExtractionResult object with the
two expected mappings, in the source's construction order. -/
def mkData (kv et : List (String × JValue)) : JValue :=
  .obj [("key_value_pairs", .obj kv), ("extracted_tests", .obj et)]

/-- Left-to-right union of association lists, later lists overwriting
earlier ones: the combined mapping built by the merge loop. -/
def combMaps (ds : List (List (String × JValue))) : List (String × JValue) :=
  ds.foldl dictUpdate []

/-- First-of-two combinator on optional values: keep a if present,
otherwise b. -/
def optOr (a b : Option JValue) : Option JValue :=
  match a with
  | some v => some v
  | none => b

/-- Value a key ends up with after a last-write-wins sweep over the
per-page mappings, in page order, starting from acc. -/
def lastFindAux (acc : Option JValue) (ds : List (List (String × JValue))) (k : String) : Option JValue :=
  ds.foldl (fun a d => optOr (dictFind d k) a) acc

/-- A page description (page number, key_value_pairs entries,
extracted_tests entries) packaged as the PageResult the dispatcher would
produce for it. -/
def pageOf (p : Nat × List (String × JValue) × List (String × JValue)) : PageResult :=
  ⟨p.1, mkData p.2.1 p.2.2⟩

/-- Inert environment for witnesses: no PDF pages, empty file bytes, a
Gemini oracle whose call always raises. -/
def env0 : Env := ⟨[], id, "", fun _ _ => none⟩

/-- Environment whose model reply is bare JSON lacking the two expected
keys: json.loads succeeds on  {"foo": 1}  and the parsed dict is
returned as-is. -/
def env6 : Env := ⟨[], id, "IMG", fun _ _ => some "\x7b\"foo\": 1\x7d"⟩

/-- Environment whose model reply is a well-formed fenced ExtractionResult
with one extracted test. -/
def env6b : Env :=
  ⟨[], id, "IMG", fun _ _ =>
    some "```json\n\x7b\"key_value_pairs\": \x7b\x7d, \"extracted_tests\": \x7b\"hemoglobin\": \"13.5 g/dL\"\x7d\x7d\n```"⟩

/-- Two-page PDF environment: page P1 yields name=A and hb=1, page P2
yields hb=2 and wbc=5 (exercising the key collision on hb). -/
def env3 : Env :=
  ⟨["P1", "P2"], id, "",
    fun d _ =>
      if d = "P1" then
        some "```json\n\x7b\"key_value_pairs\": \x7b\"name\": \"A\"\x7d, \"extracted_tests\": \x7b\"hb\": \"1\"\x7d\x7d\n```"
      else
        some "```json\n\x7b\"key_value_pairs\": \x7b\x7d, \"extracted_tests\": \x7b\"hb\": \"2\", \"wbc\": \"5\"\x7d\x7d\n```"⟩

/-- Two-page PDF environment in which every model call raises, so every
page degrades to the default empty result. -/
def env9 : Env := ⟨["P1", "P2"], id, "", fun _ _ => none⟩

/- ------------------------------------------------------------------ -/
/- Association-list (Python dict) lemmas.                              -/
/- ------------------------------------------------------------------ -/

theorem optOr_some (v : JValue) (b : Option JValue) : optOr (some v) b = some v := rfl

theorem optOr_none (b : Option JValue) : optOr none b = b := rfl

theorem optOr_none_right (a : Option JValue) : optOr a none = a := by
  cases a <;> rfl

theorem dictFind_append (d e : List (String × JValue)) (k : String) :
    dictFind (d ++ e) k = optOr (dictFind d k) (dictFind e k) := by
  induction d with
  | nil => simp [dictFind, optOr]
  | cons p rest ih =>
    obtain ⟨k1, v1⟩ := p
    by_cases h : k1 = k
    · simp [dictFind, h, optOr]
    · simp [dictFind, h, ih]

theorem dictFind_not_mem (e : List (String × JValue)) (k : String)
    (h : k ∉ e.map Prod.fst) : dictFind e k = none := by
  induction e with
  | nil => rfl
  | cons p rest ih =>
    obtain ⟨k1, v1⟩ := p
    simp only [List.map_cons, List.mem_cons] at h
    push_neg at h
    simp [dictFind, Ne.symm h.1, ih h.2]

theorem dictFind_map_subst_self (d : List (String × JValue)) (k : String) (v : JValue) :
    dictFind (d.map (fun p => if p.1 = k then (k, v) else p)) k =
      (dictFind d k).map (fun _ => v) := by
  induction d with
  | nil => rfl
  | cons p rest ih =>
    obtain ⟨k1, v1⟩ := p
    by_cases h : k1 = k
    · subst h
      simp only [List.map_cons]
      simp [dictFind]
    · simp only [List.map_cons]
      rw [if_neg h]
      simp [dictFind, h, ih]

theorem dictFind_map_subst_ne (d : List (String × JValue)) (k : String) (v : JValue)
    (k' : String) (h : k' ≠ k) :
    dictFind (d.map (fun p => if p.1 = k then (k, v) else p)) k' = dictFind d k' := by
  induction d with
  | nil => rfl
  | cons p rest ih =>
    obtain ⟨k1, v1⟩ := p
    by_cases h1 : k1 = k
    · subst h1
      simp only [List.map_cons]
      simp [dictFind, Ne.symm h, ih]
    · simp only [List.map_cons]
      rw [if_neg h1]
      simp [dictFind, h1, ih]

theorem dictFind_insert_self (d : List (String × JValue)) (k : String) (v : JValue) :
    dictFind (dictInsert d k v) k = some v := by
  unfold dictInsert
  by_cases hs : (dictFind d k).isSome
  · obtain ⟨w, hw⟩ := Option.isSome_iff_exists.mp hs
    rw [if_pos hs, dictFind_map_subst_self, hw]
    rfl
  · rw [if_neg hs, dictFind_append, Option.not_isSome_iff_eq_none.mp hs, optOr_none]
    simp [dictFind]

theorem dictFind_insert_ne (d : List (String × JValue)) (k : String) (v : JValue)
    (k' : String) (h : k' ≠ k) :
    dictFind (dictInsert d k v) k' = dictFind d k' := by
  unfold dictInsert
  by_cases hs : (dictFind d k).isSome
  · rw [if_pos hs, dictFind_map_subst_ne d k v k' h]
  · rw [if_neg hs, dictFind_append]
    have hone : dictFind [(k, v)] k' = none := by
      simp [dictFind, Ne.symm h]
    rw [hone, optOr_none_right]

theorem dictFind_update (e : List (String × JValue)) :
    ∀ (d : List (String × JValue)) (k : String), (e.map Prod.fst).Nodup →
      dictFind (dictUpdate d e) k = optOr (dictFind e k) (dictFind d k) := by
  induction e with
  | nil => intro d k _; rfl
  | cons p e' ih =>
    intro d k hnd
    obtain ⟨k1, v1⟩ := p
    simp only [List.map_cons, List.nodup_cons] at hnd
    rw [show dictUpdate d ((k1, v1) :: e') = dictUpdate (dictInsert d k1 v1) e' from rfl]
    rw [ih (dictInsert d k1 v1) k hnd.2]
    by_cases hk : k1 = k
    · subst hk
      rw [dictFind_not_mem e' k1 hnd.1]
      rw [dictFind_insert_self]
      simp [dictFind, optOr]
    · rw [dictFind_insert_ne d k1 v1 k (fun hh => hk hh.symm)]
      simp [dictFind, hk]

theorem dictFind_foldl_update (k : String) :
    ∀ (ds : List (List (String × JValue))) (d : List (String × JValue)),
      (∀ e ∈ ds, (e.map Prod.fst).Nodup) →
      dictFind (ds.foldl dictUpdate d) k = lastFindAux (dictFind d k) ds k := by
  intro ds
  induction ds with
  | nil => intro d _; rfl
  | cons e ds' ih =>
    intro d hnd
    rw [List.foldl_cons, ih (dictUpdate d e) (fun x hx => hnd x (List.mem_cons_of_mem _ hx))]
    rw [show lastFindAux (dictFind d k) (e :: ds') k =
          lastFindAux (optOr (dictFind e k) (dictFind d k)) ds' k from rfl]
    rw [dictFind_update e d k (hnd e (List.mem_cons_self _ _))]

theorem dictFind_combMaps (ds : List (List (String × JValue))) (k : String)
    (hnd : ∀ e ∈ ds, (e.map Prod.fst).Nodup) :
    dictFind (combMaps ds) k = lastFindAux none ds k :=
  dictFind_foldl_update k ds [] hnd

theorem lastFindAux_all_none (k : String) :
    ∀ (ds : List (List (String × JValue))) (acc : Option JValue),
      (∀ d ∈ ds, dictFind d k = none) → lastFindAux acc ds k = acc := by
  intro ds
  induction ds with
  | nil => intro acc _; rfl
  | cons e ds' ih =>
    intro acc h
    rw [show lastFindAux acc (e :: ds') k =
          lastFindAux (optOr (dictFind e k) acc) ds' k from rfl]
    rw [h e (List.mem_cons_self _ _), optOr_none]
    exact ih acc (fun d hd => h d (List.mem_cons_of_mem _ hd))

theorem lastFindAux_stable (k : String) (v : JValue) :
    ∀ (ds : List (List (String × JValue))),
      (∀ d ∈ ds, dictFind d k = none ∨ dictFind d k = some v) →
      lastFindAux (some v) ds k = some v := by
  intro ds
  induction ds with
  | nil => intro _; rfl
  | cons e ds' ih =>
    intro h
    rw [show lastFindAux (some v) (e :: ds') k =
          lastFindAux (optOr (dictFind e k) (some v)) ds' k from rfl]
    rcases h e (List.mem_cons_self _ _) with he | he <;>
      rw [he] <;>
      exact ih (fun d hd => h d (List.mem_cons_of_mem _ hd))

theorem lastFindAux_unique (k : String) (v : JValue) :
    ∀ (ds : List (List (String × JValue))) (acc : Option JValue) (d : List (String × JValue)),
      d ∈ ds → dictFind d k = some v →
      (∀ d' ∈ ds, d' = d ∨ dictFind d' k = none) →
      lastFindAux acc ds k = some v := by
  intro ds
  induction ds with
  | nil => intro acc d hd; exact absurd hd (List.not_mem_nil d)
  | cons e ds' ih =>
    intro acc d hd hfind hothers
    rw [show lastFindAux acc (e :: ds') k =
          lastFindAux (optOr (dictFind e k) acc) ds' k from rfl]
    rcases List.mem_cons.mp hd with rfl | hd'
    · rw [hfind, optOr_some]
      exact lastFindAux_stable k v ds' (fun d' hd' => by
        rcases hothers d' (List.mem_cons_of_mem _ hd') with rfl | hn
        · exact Or.inr hfind
        · exact Or.inl hn)
    · rcases hothers e (List.mem_cons_self _ _) with rfl | hn
      · rw [hfind, optOr_some]
        exact lastFindAux_stable k v ds' (fun d' hd'' => by
          rcases hothers d' (List.mem_cons_of_mem _ hd'') with rfl | hn2
          · exact Or.inr hfind
          · exact Or.inl hn2)
      · rw [hn, optOr_none]
        exact ih acc d hd' hfind (fun d' hd'' => hothers d' (List.mem_cons_of_mem _ hd''))

theorem lastFindAux_append (acc : Option JValue) (l1 l2 : List (List (String × JValue)))
    (k : String) :
    lastFindAux acc (l1 ++ l2) k = lastFindAux (lastFindAux acc l1 k) l2 k := by
  unfold lastFindAux
  rw [List.foldl_append]

theorem combMaps_exactly_one (ds : List (List (String × JValue))) (k : String) (v : JValue)
    (d : List (String × JValue))
    (hnd : ∀ e ∈ ds, (e.map Prod.fst).Nodup)
    (hmem : d ∈ ds) (hfind : dictFind d k = some v)
    (hothers : ∀ d' ∈ ds, d' = d ∨ dictFind d' k = none) :
    dictFind (combMaps ds) k = some v := by
  rw [dictFind_combMaps ds k hnd]
  exact lastFindAux_unique k v ds none d hmem hfind hothers

theorem combMaps_later_wins (l1 l2 l3 : List (List (String × JValue)))
    (di dj : List (String × JValue)) (k : String) (vj : JValue)
    (hnd : ∀ e ∈ l1 ++ di :: (l2 ++ dj :: l3), (e.map Prod.fst).Nodup)
    (hjfind : dictFind dj k = some vj)
    (hnone : ∀ d ∈ l1 ++ (l2 ++ l3), dictFind d k = none) :
    dictFind (combMaps (l1 ++ di :: (l2 ++ dj :: l3))) k = some vj := by
  rw [dictFind_combMaps _ k hnd]
  have h1 : ∀ d ∈ l1, dictFind d k = none :=
    fun d hd => hnone d (List.mem_append_left _ hd)
  have h2 : ∀ d ∈ l2, dictFind d k = none :=
    fun d hd => hnone d (List.mem_append_right _ (List.mem_append_left _ hd))
  have h3 : ∀ d ∈ l3, dictFind d k = none :=
    fun d hd => hnone d (List.mem_append_right _ (List.mem_append_right _ hd))
  rw [lastFindAux_append, lastFindAux_all_none k l1 none h1]
  rw [show lastFindAux none (di :: (l2 ++ dj :: l3)) k =
        lastFindAux (optOr (dictFind di k) none) (l2 ++ dj :: l3) k from rfl]
  rw [lastFindAux_append, lastFindAux_all_none k l2 _ h2]
  rw [show lastFindAux (optOr (dictFind di k) none) (dj :: l3) k =
        lastFindAux (optOr (dictFind dj k) (optOr (dictFind di k) none)) l3 k from rfl]
  rw [hjfind, optOr_some]
  exact lastFindAux_all_none k l3 _ h3

/- ------------------------------------------------------------------ -/
/- Fenced-block regex lemmas.                                          -/
/- ------------------------------------------------------------------ -/

theorem pfx_self_append (p t : List Char) : pfx p (p ++ t) = true := by
  induction p with
  | nil => rfl
  | cons a as ih => simp [pfx, ih]

theorem findFenced_none (cs : List Char) (h : hasSubstr openTok cs = false) :
    findFenced cs = none := by
  induction cs with
  | nil => rfl
  | cons c rest ih =>
    simp only [hasSubstr, Bool.or_eq_false_iff] at h
    simp only [findFenced, h.1, Bool.false_eq_true, if_false]
    exact ih h.2

theorem pfx_closeTok_overlap (s post : List Char) (hne : s ≠ [])
    (h : pfx closeTok (s ++ (closeTok ++ post)) = true) : pfx closeTok s = true := by
  rcases s with _ | ⟨a, _ | ⟨b, _ | ⟨c, _ | ⟨d, t⟩⟩⟩⟩
  · exact absurd rfl hne
  · exfalso
    simp only [closeTok, List.cons_append, List.nil_append, pfx, Bool.and_eq_true] at h
    exact absurd h.2.1 (by decide)
  · exfalso
    simp only [closeTok, List.cons_append, List.nil_append, pfx, Bool.and_eq_true] at h
    exact absurd h.2.2.1 (by decide)
  · exfalso
    simp only [closeTok, List.cons_append, List.nil_append, pfx, Bool.and_eq_true] at h
    exact absurd h.2.2.2.1 (by decide)
  · simp only [closeTok, List.cons_append, pfx, Bool.and_eq_true] at h ⊢
    exact ⟨h.1, h.2.1, h.2.2.1, h.2.2.2.1, trivial⟩

theorem findClose_clean (interior : List Char) :
    ∀ (post acc : List Char), hasSubstr closeTok interior = false →
      findClose (interior ++ (closeTok ++ post)) acc = some (acc.reverse ++ interior) := by
  induction interior with
  | nil =>
    intro post acc _
    simp [closeTok, findClose, pfx]
  | cons c int' ih =>
    intro post acc h
    simp only [hasSubstr, Bool.or_eq_false_iff] at h
    rw [List.cons_append, findClose]
    have hp : pfx closeTok (c :: (int' ++ (closeTok ++ post))) = false := by
      by_contra hcon
      have htrue : pfx closeTok ((c :: int') ++ (closeTok ++ post)) = true := by
        simpa [List.cons_append] using Bool.of_not_eq_false hcon
      have := pfx_closeTok_overlap (c :: int') post (by simp) htrue
      rw [show pfx closeTok (c :: int') = pfx closeTok (c :: int') from rfl] at this
      have hfull : hasSubstr closeTok (c :: int') = false := by
        simp [hasSubstr, h.1, h.2]
      simp only [hasSubstr, Bool.or_eq_false_iff] at hfull
      exact absurd this (by simp [hfull.1])
    rw [hp]
    simp only [Bool.false_eq_true, if_false]
    rw [ih post (c :: acc) h.2]
    simp

theorem findFenced_open (Y : List Char) :
    findFenced (openTok ++ Y) =
      match findClose Y [] with
      | some interior => some interior
      | none => findFenced (['`', '`', 'j', 's', 'o', 'n', '\n'] ++ Y) := by
  rfl

theorem findFenced_fenced (interior post : List Char)
    (h : hasSubstr closeTok interior = false) :
    findFenced (openTok ++ (interior ++ (closeTok ++ post))) = some interior := by
  rw [findFenced_open]
  rw [findClose_clean interior post [] h]
  simp

theorem pfx_openTok_overlap (s X : List Char)
    (h : pfx openTok (s ++ (openTok ++ X)) = true) :
    pfx openTok s = true ∨ s = [] := by
  rcases s with _ | ⟨a, _ | ⟨b, _ | ⟨c, _ | ⟨d, _ | ⟨e, _ | ⟨f, _ | ⟨g, _ | ⟨h8, t⟩⟩⟩⟩⟩⟩⟩⟩
  · exact Or.inr rfl
  · exfalso
    simp only [openTok, List.cons_append, List.nil_append, pfx, Bool.and_eq_true] at h
    exact absurd h.2.2.2.1 (by decide)
  · exfalso
    simp only [openTok, List.cons_append, List.nil_append, pfx, Bool.and_eq_true] at h
    exact absurd h.2.2.2.1 (by decide)
  · exfalso
    simp only [openTok, List.cons_append, List.nil_append, pfx, Bool.and_eq_true] at h
    exact absurd h.2.2.2.1 (by decide)
  · exfalso
    simp only [openTok, List.cons_append, List.nil_append, pfx, Bool.and_eq_true] at h
    exact absurd h.2.2.2.2.1 (by decide)
  · exfalso
    simp only [openTok, List.cons_append, List.nil_append, pfx, Bool.and_eq_true] at h
    exact absurd h.2.2.2.2.2.1 (by decide)
  · exfalso
    simp only [openTok, List.cons_append, List.nil_append, pfx, Bool.and_eq_true] at h
    exact absurd h.2.2.2.2.2.2.1 (by decide)
  · exfalso
    simp only [openTok, List.cons_append, List.nil_append, pfx, Bool.and_eq_true] at h
    exact absurd h.2.2.2.2.2.2.2.1 (by decide)
  · refine Or.inl ?_
    simp only [openTok, List.cons_append, pfx, Bool.and_eq_true] at h ⊢
    exact ⟨h.1, h.2.1, h.2.2.1, h.2.2.2.1, h.2.2.2.2.1, h.2.2.2.2.2.1,
      h.2.2.2.2.2.2.1, h.2.2.2.2.2.2.2.1, trivial⟩

theorem findFenced_shift (pre : List Char) :
    ∀ X : List Char, hasSubstr openTok pre = false →
      findFenced (pre ++ (openTok ++ X)) = findFenced (openTok ++ X) := by
  induction pre with
  | nil => intro X _; rw [List.nil_append]
  | cons c pre' ih =>
    intro X h
    simp only [hasSubstr, Bool.or_eq_false_iff] at h
    rw [List.cons_append, findFenced]
    have hp : pfx openTok (c :: (pre' ++ (openTok ++ X))) = false := by
      by_contra hcon
      have htrue : pfx openTok ((c :: pre') ++ (openTok ++ X)) = true := by
        simpa [List.cons_append] using Bool.of_not_eq_false hcon
      rcases pfx_openTok_overlap (c :: pre') X htrue with hpf | hnil
      · exact absurd hpf (by simp [h.1])
      · exact absurd hnil (by simp)
    rw [hp]
    simp only [Bool.false_eq_true, if_false]
    exact ih X h.2

theorem hasSubstr_drop (pat : List Char) (n : Nat) :
    ∀ cs : List Char, hasSubstr pat cs = false → hasSubstr pat (cs.drop n) = false := by
  induction n with
  | zero => intro cs h; simpa using h
  | succ n ih =>
    intro cs h
    cases cs with
    | nil => simpa using h
    | cons c rest =>
      simp only [hasSubstr, Bool.or_eq_false_iff] at h
      rw [List.drop_succ_cons]
      exact ih rest h.2

theorem findClose_none (cs : List Char) :
    ∀ acc : List Char, hasSubstr closeTok cs = false → findClose cs acc = none := by
  induction cs with
  | nil => intro acc _; rfl
  | cons c rest ih =>
    intro acc h
    simp only [hasSubstr, Bool.or_eq_false_iff] at h
    rw [findClose, h.1]
    simp only [Bool.false_eq_true, if_false]
    exact ih (c :: acc) h.2

theorem findFenced_no_close (cs : List Char)
    (h : hasSubstr closeTok cs = false) : findFenced cs = none := by
  induction cs with
  | nil => rfl
  | cons c rest ih =>
    have h2 : hasSubstr closeTok rest = false := by
      simp only [hasSubstr, Bool.or_eq_false_iff] at h
      exact h.2
    rw [findFenced]
    by_cases hp : pfx openTok (c :: rest) = true
    · rw [hp]
      simp only [if_true]
      rw [findClose_none (List.drop openTok.length (c :: rest)) []
            (hasSubstr_drop closeTok openTok.length (c :: rest) h)]
      exact ih h2
    · rw [Bool.not_eq_true] at hp
      rw [hp]
      simp only [Bool.false_eq_true, if_false]
      exact ih h2

/- ------------------------------------------------------------------ -/
/- Merge-loop and endpoint lemmas.                                     -/
/- ------------------------------------------------------------------ -/

theorem jSubscript_mkData_kv (kv et : List (String × JValue)) :
    jSubscript (mkData kv et) "key_value_pairs" = .ok (.obj kv) := rfl

theorem jSubscript_mkData_et (kv et : List (String × JValue)) :
    jSubscript (mkData kv et) "extracted_tests" = .ok (.obj et) := rfl

theorem emptyResultCheck_mkData (p : Nat) (kv et : List (String × JValue)) :
    emptyResultCheck [⟨p, mkData kv et⟩] = .ok (kv.isEmpty && et.isEmpty) := by
  cases kv <;> cases et <;> rfl

theorem emptyResultCheck_multi (a b : PageResult) (t : List PageResult) :
    emptyResultCheck (a :: b :: t) = .ok false := rfl

theorem mergeStep_pageOf (ab : List (String × JValue) × List (String × JValue))
    (p : Nat × List (String × JValue) × List (String × JValue)) :
    mergeStep ab (pageOf p) = .ok (dictUpdate ab.1 p.2.1, dictUpdate ab.2 p.2.2) := rfl

theorem merge_foldlM_map
    (pages : List (Nat × List (String × JValue) × List (String × JValue))) :
    ∀ ab : List (String × JValue) × List (String × JValue),
      List.foldlM mergeStep ab (pages.map pageOf) =
        .ok (pages.foldl (fun ab p => (dictUpdate ab.1 p.2.1, dictUpdate ab.2 p.2.2)) ab) := by
  induction pages with
  | nil => intro ab; rfl
  | cons p pages' ih =>
    intro ab
    rw [List.map_cons, List.foldlM_cons, mergeStep_pageOf]
    rw [show ((Except.ok (dictUpdate ab.1 p.2.1, dictUpdate ab.2 p.2.2) :
          Except String (List (String × JValue) × List (String × JValue))) >>= fun s =>
          List.foldlM mergeStep s (pages'.map pageOf)) =
        List.foldlM mergeStep (dictUpdate ab.1 p.2.1, dictUpdate ab.2 p.2.2)
          (pages'.map pageOf) from rfl]
    rw [ih (dictUpdate ab.1 p.2.1, dictUpdate ab.2 p.2.2), List.foldl_cons]

theorem pair_foldl_split
    (pages : List (Nat × List (String × JValue) × List (String × JValue))) :
    ∀ ab : List (String × JValue) × List (String × JValue),
      pages.foldl (fun ab p => (dictUpdate ab.1 p.2.1, dictUpdate ab.2 p.2.2)) ab =
        ((pages.map (fun p => p.2.1)).foldl dictUpdate ab.1,
         (pages.map (fun p => p.2.2)).foldl dictUpdate ab.2) := by
  induction pages with
  | nil => intro ab; rfl
  | cons p pages' ih =>
    intro ab
    rw [List.foldl_cons, ih (dictUpdate ab.1 p.2.1, dictUpdate ab.2 p.2.2)]
    rfl

theorem mergeResults_map
    (pages : List (Nat × List (String × JValue) × List (String × JValue))) :
    mergeResults (pages.map pageOf) =
      .ok (mkData (combMaps (pages.map (fun p => p.2.1)))
                  (combMaps (pages.map (fun p => p.2.2)))) := by
  unfold mergeResults
  rw [merge_foldlM_map pages ([], []), pair_foldl_split pages ([], [])]
  rfl

theorem merge_all_empty (rs : List PageResult) :
    ∀ ab : List (String × JValue) × List (String × JValue),
      (∀ r ∈ rs, r.data = mkData [] []) →
      List.foldlM mergeStep ab rs = .ok ab := by
  induction rs with
  | nil => intro ab _; rfl
  | cons r rs' ih =>
    intro ab hall
    obtain ⟨pg, d⟩ := r
    have hd : d = mkData [] [] := hall ⟨pg, d⟩ (List.mem_cons_self _ _)
    subst hd
    rw [List.foldlM_cons]
    rw [show mergeStep ab ⟨pg, mkData [] []⟩ = .ok ab from rfl]
    rw [show ((Except.ok ab : Except String (List (String × JValue) × List (String × JValue)))
          >>= fun s => List.foldlM mergeStep s rs') = List.foldlM mergeStep ab rs' from rfl]
    exact ih ab (fun x hx => hall x (List.mem_cons_of_mem _ hx))

theorem mergeResults_all_empty (rs : List PageResult)
    (hall : ∀ r ∈ rs, r.data = mkData [] []) :
    mergeResults rs = .ok (mkData [] []) := by
  unfold mergeResults
  rw [merge_all_empty rs ([], []) hall]
  rfl

theorem upload_file_ok (env : Env) (req : UploadRequest)
    (hreq : req.hasFilePart = true) (hname : req.filename ≠ "") :
    upload_file env req =
      some ⟨(handleUpload env (os_path_join UPLOAD_FOLDER req.filename)).1,
            (handleUpload env (os_path_join UPLOAD_FOLDER req.filename)).2,
            [FsOp.save (os_path_join UPLOAD_FOLDER req.filename)]⟩ := by
  simp [upload_file, hreq, hname]

theorem handleUpload_multi (env : Env) (path : String) (r1 r2 : PageResult)
    (rs : List PageResult)
    (hproc : process_uploaded_file env path = .ok (r1 :: r2 :: rs)) :
    handleUpload env path =
      match mergeResults (r1 :: r2 :: rs) with
      | .error e => (500, errBody ("Processing failed: " ++ e))
      | .ok fin => (200, .obj [("data", fin)]) := by
  unfold handleUpload
  rw [hproc]
  rfl

theorem handleUpload_single (env : Env) (path : String) (r : PageResult)
    (hproc : process_uploaded_file env path = .ok [r]) :
    handleUpload env path =
      match emptyResultCheck [r] with
      | .error e => (500, errBody ("Processing failed: " ++ e))
      | .ok true =>
        (500, errBody "Failed to extract data from the file. Ensure the file contains readable medical report data.")
      | .ok false => (200, .obj [("data", r.data)]) := by
  unfold handleUpload
  rw [hproc]

theorem handleUpload_error (env : Env) (path : String) (e : String)
    (hproc : process_uploaded_file env path = .error e) :
    handleUpload env path = (500, errBody ("Processing failed: " ++ e)) := by
  unfold handleUpload
  rw [hproc]

/- ------------------------------------------------------------------ -/
/- Claims.                                                             -/
/- ------------------------------------------------------------------ -/

/-- Claim C1, counterexample: uploading report.gif — an unsupported
extension — makes POST /upload respond 500 with the body
{"error": "Processing failed: Unsupported file type: .gif. ..."}, not the
claimed 400 with {"error": "Unsupported file type: .gif. ..."}: the
dispatcher's ValueError is swallowed by the endpoint's generic exception
handler. -/
theorem C1_counterexample :
    upload_file env0 ⟨true, "report.gif"⟩ =
      some ⟨500,
        errBody "Processing failed: Unsupported file type: .gif. Please upload a PDF, JPEG, or PNG file.",
        [FsOp.save "Uploads/report.gif"]⟩
    ∧ (upload_file env0 ⟨true, "report.gif"⟩).map (fun r => r.status) ≠ some 400 :=
  ⟨rfl, by decide⟩

/-- Claim C1 (amended): for every uploaded file whose lowercased extension
is not one of .pdf, .jpg, .jpeg, .png, POST /upload responds with HTTP
status 500 and body {"error": "Processing failed: Unsupported file type:
<ext>. Please upload a PDF, JPEG, or PNG file."} — the dispatcher's
ValueError reaches the generic except handler of the endpoint, so the
client sees a processing-failure 500, not the 400 client error the spec
describes. -/
theorem C1_amended (env : Env) (req : UploadRequest)
    (hreq : req.hasFilePart = true) (hname : req.filename ≠ "")
    (h1 : pyLower (splitext_ext (os_path_join UPLOAD_FOLDER req.filename)) ∉ [".pdf"])
    (h2 : pyLower (splitext_ext (os_path_join UPLOAD_FOLDER req.filename)) ∉
      [".jpg", ".jpeg", ".png"]) :
    upload_file env req =
      some ⟨500,
        errBody ("Processing failed: " ++
          ("Unsupported file type: " ++
            pyLower (splitext_ext (os_path_join UPLOAD_FOLDER req.filename)) ++
            ". Please upload a PDF, JPEG, or PNG file.")),
        [FsOp.save (os_path_join UPLOAD_FOLDER req.filename)]⟩ := by
  rw [upload_file_ok env req hreq hname]
  have hp : process_uploaded_file env (os_path_join UPLOAD_FOLDER req.filename) =
      .error ("Unsupported file type: " ++
        pyLower (splitext_ext (os_path_join UPLOAD_FOLDER req.filename)) ++
        ". Please upload a PDF, JPEG, or PNG file.") := by
    simp only [process_uploaded_file]
    rw [if_neg h1, if_neg h2]
  rw [handleUpload_error env _ _ hp]

/-- Claim C1 witness: the amended statement instantiated at report.gif
with the inert environment. -/
theorem C1_witness :
    pyLower (splitext_ext (os_path_join UPLOAD_FOLDER "report.gif")) ∉ [".pdf"] ∧
    pyLower (splitext_ext (os_path_join UPLOAD_FOLDER "report.gif")) ∉
      [".jpg", ".jpeg", ".png"] ∧
    upload_file env0 ⟨true, "report.gif"⟩ =
      some ⟨500,
        errBody ("Processing failed: " ++
          ("Unsupported file type: " ++
            pyLower (splitext_ext (os_path_join UPLOAD_FOLDER "report.gif")) ++
            ". Please upload a PDF, JPEG, or PNG file.")),
        [FsOp.save (os_path_join UPLOAD_FOLDER "report.gif")]⟩ :=
  ⟨by decide, by decide,
   C1_amended env0 ⟨true, "report.gif"⟩ rfl (by decide) (by decide) (by decide)⟩

/-- Claim C2, counterexample: the raw model reply "3" is valid JSON, so
json.loads succeeds and the function returns the JSON number 3 as-is —
not a mapping, so in particular not a mapping with the keys
key_value_pairs and extracted_tests. -/
theorem C2_counterexample :
    parseGeminiText "3" = .num "3" ∧ jIsObj (parseGeminiText "3") = false :=
  ⟨rfl, rfl⟩

/-- Claim C2 (amended): the parse-and-catch logic never raises outward;
on JSON parse failure of the candidate (or any other exception) it
returns the default {key_value_pairs: {}, extracted_tests: {}}, and on
parse success it returns the parsed JSON value verbatim — which is a
mapping with the two expected keys only when the model's JSON has them. -/
theorem C2_amended (raw : String) :
    (json_loads (geminiCandidate raw) = none →
      parseGeminiText raw = defaultExtraction) ∧
    (∀ v, json_loads (geminiCandidate raw) = some v → parseGeminiText raw = v) := by
  constructor
  · intro h
    unfold parseGeminiText
    rw [h]
  · intro v h
    unfold parseGeminiText
    rw [h]

/-- Claim C2 witness: a non-JSON reply degrades to the default. -/
theorem C2_witness :
    json_loads (geminiCandidate "not json") = none ∧
    parseGeminiText "not json" = defaultExtraction :=
  ⟨rfl, (C2_amended "not json").1 rfl⟩

/-- Claim C3: when the dispatcher returns two or more PageResults, each a
well-formed ExtractionResult whose mappings have duplicate-free keys, the
endpoint responds 200 with the per-page mappings merged in page order; a
key present in exactly one page appears unchanged with that page's value,
and a key present in two pages (all other pages lacking it) appears with
the later page's value (last-write-wins). -/
theorem C3_merge_last_write_wins (env : Env) (req : UploadRequest)
    (pages : List (Nat × List (String × JValue) × List (String × JValue)))
    (hreq : req.hasFilePart = true) (hname : req.filename ≠ "")
    (hproc : process_uploaded_file env (os_path_join UPLOAD_FOLDER req.filename) =
      .ok (pages.map pageOf))
    (hlen : 2 ≤ pages.length)
    (hnodup : ∀ p ∈ pages, (p.2.1.map Prod.fst).Nodup ∧ (p.2.2.map Prod.fst).Nodup) :
    (upload_file env req = some ⟨200,
        .obj [("data", mkData (combMaps (pages.map (fun p => p.2.1)))
                              (combMaps (pages.map (fun p => p.2.2))))],
        [FsOp.save (os_path_join UPLOAD_FOLDER req.filename)]⟩)
    ∧ (∀ (k : String) (v : JValue) (d : List (String × JValue)),
        d ∈ pages.map (fun p => p.2.2) → dictFind d k = some v →
        (∀ d' ∈ pages.map (fun p => p.2.2), d' = d ∨ dictFind d' k = none) →
        dictFind (combMaps (pages.map (fun p => p.2.2))) k = some v)
    ∧ (∀ (k : String) (v : JValue) (d : List (String × JValue)),
        d ∈ pages.map (fun p => p.2.1) → dictFind d k = some v →
        (∀ d' ∈ pages.map (fun p => p.2.1), d' = d ∨ dictFind d' k = none) →
        dictFind (combMaps (pages.map (fun p => p.2.1))) k = some v)
    ∧ (∀ (k : String) (vj : JValue) l1 di l2 dj l3,
        pages.map (fun p => p.2.2) = l1 ++ di :: (l2 ++ dj :: l3) →
        dictFind dj k = some vj →
        (∀ d ∈ l1 ++ (l2 ++ l3), dictFind d k = none) →
        dictFind (combMaps (pages.map (fun p => p.2.2))) k = some vj)
    ∧ (∀ (k : String) (vj : JValue) l1 di l2 dj l3,
        pages.map (fun p => p.2.1) = l1 ++ di :: (l2 ++ dj :: l3) →
        dictFind dj k = some vj →
        (∀ d ∈ l1 ++ (l2 ++ l3), dictFind d k = none) →
        dictFind (combMaps (pages.map (fun p => p.2.1))) k = some vj) := by
  have hnd1 : ∀ d ∈ pages.map (fun p => p.2.1), (d.map Prod.fst).Nodup := by
    intro d hd
    obtain ⟨p, hp, rfl⟩ := List.mem_map.mp hd
    exact (hnodup p hp).1
  have hnd2 : ∀ d ∈ pages.map (fun p => p.2.2), (d.map Prod.fst).Nodup := by
    intro d hd
    obtain ⟨p, hp, rfl⟩ := List.mem_map.mp hd
    exact (hnodup p hp).2
  refine ⟨?_, ?_, ?_, ?_, ?_⟩
  · obtain ⟨p1, p2, ps, rfl⟩ : ∃ p1 p2 ps, pages = p1 :: p2 :: ps := by
      rcases pages with _ | ⟨p1, _ | ⟨p2, ps⟩⟩
      · simp at hlen
      · simp at hlen
      · exact ⟨p1, p2, ps, rfl⟩
    rw [upload_file_ok env req hreq hname]
    have hmr : mergeResults (pageOf p1 :: pageOf p2 :: ps.map pageOf) =
        .ok (mkData (combMaps ((p1 :: p2 :: ps).map (fun p => p.2.1)))
                    (combMaps ((p1 :: p2 :: ps).map (fun p => p.2.2)))) := by
      have h := mergeResults_map (p1 :: p2 :: ps)
      simpa using h
    have hh : handleUpload env (os_path_join UPLOAD_FOLDER req.filename) =
        (200, .obj [("data", mkData (combMaps ((p1 :: p2 :: ps).map (fun p => p.2.1)))
                                    (combMaps ((p1 :: p2 :: ps).map (fun p => p.2.2))))]) := by
      rw [handleUpload_multi env _ (pageOf p1) (pageOf p2) (ps.map pageOf)
            (by simpa using hproc)]
      rw [hmr]
    rw [hh]
  · intro k v d hd hf ho
    exact combMaps_exactly_one _ k v d hnd2 hd hf ho
  · intro k v d hd hf ho
    exact combMaps_exactly_one _ k v d hnd1 hd hf ho
  · intro k vj l1 di l2 dj l3 hsplit hjf hnone
    rw [hsplit]
    exact combMaps_later_wins l1 l2 l3 di dj k vj (hsplit ▸ hnd2) hjf hnone
  · intro k vj l1 di l2 dj l3 hsplit hjf hnone
    rw [hsplit]
    exact combMaps_later_wins l1 l2 l3 di dj k vj (hsplit ▸ hnd1) hjf hnone

/-- Claim C3 witness: the merge theorem instantiated on the two-page PDF
environment, where the key hb collides (page 2 wins) and the keys name
and wbc each occur on exactly one page. -/
theorem C3_witness :
    upload_file env3 ⟨true, "r.pdf"⟩ =
      some ⟨200,
        .obj [("data", mkData [("name", .str "A")]
                              [("hb", .str "2"), ("wbc", .str "5")])],
        [FsOp.save "Uploads/r.pdf"]⟩ := by
  have h := (C3_merge_last_write_wins env3 ⟨true, "r.pdf"⟩
    [(1, [("name", JValue.str "A")], [("hb", JValue.str "1")]),
     (2, [], [("hb", JValue.str "2"), ("wbc", JValue.str "5")])]
    rfl (by decide) rfl (by decide) (by decide)).1
  exact h

/-- Claim C4: a .pdf upload whose rasterization yields zero images makes
the dispatcher return the single default empty PageResult for page 1
(without raising), after which the endpoint responds 500 with the
extraction-failure body. -/
theorem C4_pdf_zero_images (env : Env) (req : UploadRequest)
    (hreq : req.hasFilePart = true) (hname : req.filename ≠ "")
    (hext : pyLower (splitext_ext (os_path_join UPLOAD_FOLDER req.filename)) = ".pdf")
    (himg : env.pdfImages = []) :
    process_uploaded_file env (os_path_join UPLOAD_FOLDER req.filename) =
      .ok [⟨1, defaultExtraction⟩]
    ∧ upload_file env req =
      some ⟨500,
        errBody "Failed to extract data from the file. Ensure the file contains readable medical report data.",
        [FsOp.save (os_path_join UPLOAD_FOLDER req.filename)]⟩ := by
  have hp : process_uploaded_file env (os_path_join UPLOAD_FOLDER req.filename) =
      .ok [⟨1, defaultExtraction⟩] := by
    simp [process_uploaded_file, hext, himg]
  refine ⟨hp, ?_⟩
  rw [upload_file_ok env req hreq hname]
  have hh : handleUpload env (os_path_join UPLOAD_FOLDER req.filename) =
      (500, errBody "Failed to extract data from the file. Ensure the file contains readable medical report data.") := by
    rw [handleUpload_single env _ ⟨1, defaultExtraction⟩ hp]
    rfl
  rw [hh]

/-- Claim C4 witness: the statement instantiated at doc.pdf with the
environment whose rasterizer yields no pages. -/
theorem C4_witness :
    pyLower (splitext_ext (os_path_join UPLOAD_FOLDER "doc.pdf")) = ".pdf" ∧
    process_uploaded_file env0 (os_path_join UPLOAD_FOLDER "doc.pdf") =
      .ok [⟨1, defaultExtraction⟩] ∧
    upload_file env0 ⟨true, "doc.pdf"⟩ =
      some ⟨500,
        errBody "Failed to extract data from the file. Ensure the file contains readable medical report data.",
        [FsOp.save (os_path_join UPLOAD_FOLDER "doc.pdf")]⟩ := by
  have h := C4_pdf_zero_images env0 ⟨true, "doc.pdf"⟩ rfl (by decide) (by decide) rfl
  exact ⟨by decide, h.1, h.2⟩

/-- Claim C5: the parser candidate is the stripped non-greedy interior of
the ```json fenced block when the raw reply contains one, and the whole
trimmed reply otherwise.  The fenced case is proved in general position:
any prefix before the fence (as long as it contains no fence opener of
its own, so the exhibited opener is the regex's leftmost) and any text
after the closing fence, with the interior free of "\n```" (which makes
it the non-greedy match).  The otherwise-branch is proved both for
replies with no "```json\n" marker at all and for replies with no closing
"\n```" anywhere (unterminated fences).  In particular the fenced
hemoglobin example parses to exactly
{key_value_pairs: {}, extracted_tests: {hemoglobin: "13.5 g/dL"}}. -/
theorem C5_candidate_selection :
    parseGeminiText "```json\n\x7b\"key_value_pairs\": \x7b\x7d, \"extracted_tests\": \x7b\"hemoglobin\": \"13.5 g/dL\"\x7d\x7d\n```"
      = mkData [] [("hemoglobin", .str "13.5 g/dL")]
    ∧ (∀ raw : String, hasSubstr openTok raw.toList = false →
        geminiCandidate raw = pyStrip raw)
    ∧ (∀ raw : String, hasSubstr closeTok raw.toList = false →
        geminiCandidate raw = pyStrip raw)
    ∧ (∀ pre interior post : List Char,
        hasSubstr openTok pre = false → hasSubstr closeTok interior = false →
        geminiCandidate
            (String.mk (pre ++ (openTok ++ (interior ++ (closeTok ++ post))))) =
          pyStrip (String.mk interior)) := by
  refine ⟨rfl, ?_, ?_, ?_⟩
  · intro raw h
    unfold geminiCandidate
    rw [findFenced_none raw.toList h]
  · intro raw h
    unfold geminiCandidate
    rw [findFenced_no_close raw.toList h]
  · intro pre interior post hpre hint
    unfold geminiCandidate
    rw [show (String.mk (pre ++ (openTok ++ (interior ++ (closeTok ++ post))))).toList =
          pre ++ (openTok ++ (interior ++ (closeTok ++ post))) from rfl]
    rw [findFenced_shift pre (interior ++ (closeTok ++ post)) hpre]
    rw [findFenced_fenced interior post hint]

/-- Claim C5 witness: the fenced branch with prose before the fence and
trailing text after it, the unterminated-fence branch (an opener with no
closing fence falls back to the whole stripped reply), and the plain
no-fence branch. -/
theorem C5_witness :
    geminiCandidate
        (String.mk (['p', 'r', 'e', ' '] ++ (openTok ++ (['a'] ++ (closeTok ++ ['z']))))) =
      pyStrip (String.mk ['a']) ∧
    geminiCandidate "```json\n no closing fence" =
      pyStrip "```json\n no closing fence" ∧
    geminiCandidate "plain text" = pyStrip "plain text" :=
  ⟨C5_candidate_selection.2.2.2 ['p', 'r', 'e', ' '] ['a'] ['z'] (by decide) (by decide),
   C5_candidate_selection.2.2.1 "```json\n no closing fence" (by decide),
   C5_candidate_selection.2.1 "plain text" (by decide)⟩

/-- Claim C6, counterexample: a single-image upload whose model reply is
the bare JSON object {"foo": 1} produces exactly one PageResult that is
not the empty-empty ExtractionResult, yet the endpoint responds 500
(Processing failed: 'key_value_pairs', the KeyError raised by the
empty-result check) instead of returning the data verbatim with 200. -/
theorem C6_counterexample :
    process_uploaded_file env6 (os_path_join UPLOAD_FOLDER "scan.jpg") =
      .ok [⟨1, .obj [("foo", .num "1")]⟩]
    ∧ jKeys (JValue.obj [("foo", .num "1")]) = ["foo"]
    ∧ upload_file env6 ⟨true, "scan.jpg"⟩ =
      some ⟨500, errBody "Processing failed: 'key_value_pairs'",
        [FsOp.save "Uploads/scan.jpg"]⟩ :=
  ⟨rfl, rfl, rfl⟩

/-- Claim C6 (amended): for every upload for which the dispatcher returns
exactly one PageResult whose data is a two-key ExtractionResult mapping
that is not empty-empty, the endpoint's response data equals that
PageResult's data verbatim, returned as HTTP 200 with body {"data": ...};
a single PageResult whose data lacks one of the two keys instead raises a
KeyError that surfaces as a Processing failed 500. -/
theorem C6_amended (env : Env) (req : UploadRequest) (p : Nat)
    (kv et : List (String × JValue))
    (hreq : req.hasFilePart = true) (hname : req.filename ≠ "")
    (hproc : process_uploaded_file env (os_path_join UPLOAD_FOLDER req.filename) =
      .ok [⟨p, mkData kv et⟩])
    (hne : ¬(kv = [] ∧ et = [])) :
    upload_file env req =
      some ⟨200, .obj [("data", mkData kv et)],
        [FsOp.save (os_path_join UPLOAD_FOLDER req.filename)]⟩ := by
  rw [upload_file_ok env req hreq hname]
  have hb : (kv.isEmpty && et.isEmpty) = false := by
    cases kv with
    | nil =>
      cases et with
      | nil => exact absurd ⟨rfl, rfl⟩ hne
      | cons _ _ => rfl
    | cons _ _ => rfl
  have hh : handleUpload env (os_path_join UPLOAD_FOLDER req.filename) =
      (200, .obj [("data", mkData kv et)]) := by
    rw [handleUpload_single env _ ⟨p, mkData kv et⟩ hproc, emptyResultCheck_mkData, hb]
  rw [hh]

/-- Claim C6 witness: the amended statement instantiated on the
environment whose single image yields one nonempty extracted test. -/
theorem C6_witness :
    upload_file env6b ⟨true, "scan.jpg"⟩ =
      some ⟨200,
        .obj [("data", mkData [] [("hemoglobin", .str "13.5 g/dL")])],
        [FsOp.save (os_path_join UPLOAD_FOLDER "scan.jpg")]⟩ :=
  C6_amended env6b ⟨true, "scan.jpg"⟩ 1 [] [("hemoglobin", .str "13.5 g/dL")]
    rfl (by decide) rfl (by simp)

/-- Claim C7: for every uploaded file with lowercased extension .jpg,
.jpeg or .png, the dispatcher reads the file's raw bytes directly and
invokes the Model Client + Parser exactly once, always asserting MIME
type image/jpeg (also for .png files), returning exactly one PageResult
with page number 1. -/
theorem C7_image_branch (env : Env) (path : String)
    (hext : pyLower (splitext_ext path) ∈ [".jpg", ".jpeg", ".png"]) :
    process_uploaded_file env path =
      .ok [⟨1, extract_medical_terms_with_gemini_image env env.fileBytes "image/jpeg"⟩] := by
  rcases (by simpa using hext :
      pyLower (splitext_ext path) = ".jpg" ∨ pyLower (splitext_ext path) = ".jpeg" ∨
        pyLower (splitext_ext path) = ".png") with h | h | h <;>
    · simp only [process_uploaded_file]
      rw [h, if_neg (by decide), if_pos (by decide)]

/-- Claim C7 witness: a .png upload goes through the image branch with
MIME image/jpeg. -/
theorem C7_witness :
    pyLower (splitext_ext "x.png") ∈ [".jpg", ".jpeg", ".png"] ∧
    process_uploaded_file env0 "x.png" =
      .ok [⟨1, extract_medical_terms_with_gemini_image env0 env0.fileBytes "image/jpeg"⟩] :=
  ⟨by decide, C7_image_branch env0 "x.png" (by decide)⟩

/-- Claim C8: a POST /upload request without a file field gets 400 with
{"error": "No file part in the request"}, and one with an empty filename
gets 400 with {"error": "No file selected"}; in both cases the filesystem
trace is empty — nothing is persisted and the dispatcher never runs. -/
theorem C8_request_guards (env : Env) (req : UploadRequest) :
    (req.hasFilePart = false →
      upload_file env req = some ⟨400, errBody "No file part in the request", []⟩)
    ∧ (req.hasFilePart = true → req.filename = "" →
      upload_file env req = some ⟨400, errBody "No file selected", []⟩) := by
  constructor
  · intro h
    simp [upload_file, h]
  · intro h1 h2
    simp [upload_file, h1, h2]

/-- Claim C8 witness: both guards instantiated concretely. -/
theorem C8_witness :
    upload_file env0 ⟨false, "anything"⟩ =
      some ⟨400, errBody "No file part in the request", []⟩ ∧
    upload_file env0 ⟨true, ""⟩ = some ⟨400, errBody "No file selected", []⟩ :=
  ⟨(C8_request_guards env0 ⟨false, "anything"⟩).1 rfl,
   (C8_request_guards env0 ⟨true, ""⟩).2 rfl rfl⟩

/-- Claim C9: when the dispatcher returns two or more PageResults all of
whose mappings are empty, the empty-result 500 does not fire (its check
only applies to a single PageResult): the endpoint responds 200 with
{"data": {"key_value_pairs": {}, "extracted_tests": {}}}. -/
theorem C9_multipage_empty_200 (env : Env) (req : UploadRequest)
    (results : List PageResult)
    (hreq : req.hasFilePart = true) (hname : req.filename ≠ "")
    (hproc : process_uploaded_file env (os_path_join UPLOAD_FOLDER req.filename) =
      .ok results)
    (hlen : 2 ≤ results.length)
    (hall : ∀ r ∈ results, r.data = mkData [] []) :
    upload_file env req =
      some ⟨200, .obj [("data", mkData [] [])],
        [FsOp.save (os_path_join UPLOAD_FOLDER req.filename)]⟩ := by
  obtain ⟨r1, r2, rs, rfl⟩ : ∃ r1 r2 rs, results = r1 :: r2 :: rs := by
    rcases results with _ | ⟨r1, _ | ⟨r2, rs⟩⟩
    · simp at hlen
    · simp at hlen
    · exact ⟨r1, r2, rs, rfl⟩
  rw [upload_file_ok env req hreq hname]
  have hh : handleUpload env (os_path_join UPLOAD_FOLDER req.filename) =
      (200, .obj [("data", mkData [] [])]) := by
    rw [handleUpload_multi env _ r1 r2 rs hproc, mergeResults_all_empty _ hall]
  rw [hh]

/-- Claim C9 witness: a two-page PDF whose model calls all raise, so both
pages degrade to empty mappings — yet the response is 200 with empty
data, not the extraction-failure 500. -/
theorem C9_witness :
    upload_file env9 ⟨true, "r.pdf"⟩ =
      some ⟨200, .obj [("data", mkData [] [])], [FsOp.save "Uploads/r.pdf"]⟩ := by
  have h := C9_multipage_empty_200 env9 ⟨true, "r.pdf"⟩
    [⟨1, mkData [] []⟩, ⟨2, mkData [] []⟩] rfl (by decide) rfl (by decide)
    (by
      intro r hr
      simp only [List.mem_cons, List.not_mem_nil, or_false] at hr
      rcases hr with rfl | rfl <;> rfl)
  exact h

/-- Claim C10: every request carrying a file field with a nonempty
filename gets the uploaded bytes written to the Uploads directory under
the client-supplied name before the extension is validated; the
filesystem trace of the request is exactly one save operation — so even
an unsupported .gif upload leaves the file persisted, and no code path
performs a delete. -/
theorem C10_persist_no_delete (env : Env) (req : UploadRequest)
    (hreq : req.hasFilePart = true) (hname : req.filename ≠ "") :
    ∃ r : HttpReply, upload_file env req = some r ∧
      r.fs = [FsOp.save (os_path_join UPLOAD_FOLDER req.filename)] :=
  ⟨_, upload_file_ok env req hreq hname, rfl⟩

/-- Claim C10 witness: even the unsupported report.gif upload leaves
exactly one saved file and no delete in the trace. -/
theorem C10_witness :
    ∃ r : HttpReply, upload_file env0 ⟨true, "report.gif"⟩ = some r ∧
      r.fs = [FsOp.save (os_path_join UPLOAD_FOLDER "report.gif")] :=
  C10_persist_no_delete env0 ⟨true, "report.gif"⟩ rfl (by decide)

end MedExtract
